import Mathlib

set_option autoImplicit false

/-!
Shallow embedding of the order & identifier reconciliation layer of the
vnpy OKX gateway (src/vnpy/okx/okx_gateway.py) and of the RPC relay
gateway (src/vnpy/rpcservice/rpc_gateway/rpc_gateway.py).

Conventions of the embedding:
- Python dicts used as key-value maps with unenumerated keys are embedded
  as functions `String → Option _`; the global candle buffer, whose key
  order matters for finalization, is an association list.
- Vendor timestamps (millisecond strings parsed by `parse_timestamp`)
  are embedded as `Nat`; `parse_timestamp` is injective on them so the
  datetime key of the candle buffer is represented by the raw value.
- String-to-float conversions (prices, sizes) are kept symbolic: the raw
  vendor string is carried unchanged, since no verified property inspects
  the numeric value; `round_to` over contract metadata is likewise kept
  as the raw fill-size string.
- Fallible lookups that raise `KeyError` in Python (enum translation
  tables, the remote-to-local algo map) are embedded with `Except`, and
  handlers that loop with side effects record the events emitted before
  an exception together with an optional error.
-/

namespace Vnpy

/-- Order status enum (vnpy.trader.constant.Status, restricted to the
values used by this gateway). -/
inductive Status where
  | SUBMITTING
  | NOTTRADED
  | PARTTRADED
  | ALLTRADED
  | CANCELLED
  | REJECTED
deriving DecidableEq, Repr

/-- Order type enum (vnpy.trader.constant.OrderType, values used here). -/
inductive OrderType where
  | LIMIT
  | MARKET
  | STOP
  | FOK
  | FAK
deriving DecidableEq, Repr

/-- Direction enum. -/
inductive Direction where
  | LONG
  | SHORT
  | NET
deriving DecidableEq, Repr

/-- Offset enum (only NONE is produced by this gateway's decoders; other
values can arrive from the caller on submitted orders). -/
inductive Offset where
  | NONE
  | OPEN
  | CLOSE
deriving DecidableEq, Repr

/-- STATUS_OKX2VT: vendor order-state string to internal status; `none`
models a Python `KeyError` on an unmapped value. -/
def STATUS_OKX2VT (s : String) : Option Status :=
  if s = "live" then some Status.NOTTRADED
  else if s = "partially_filled" then some Status.PARTTRADED
  else if s = "filled" then some Status.ALLTRADED
  else if s = "canceled" then some Status.CANCELLED
  else none

/-- ORDERTYPE_OKX2VT: vendor order-type string to internal order type. -/
def ORDERTYPE_OKX2VT (s : String) : Option OrderType :=
  if s = "limit" then some OrderType.LIMIT
  else if s = "market" then some OrderType.MARKET
  else if s = "stop" then some OrderType.STOP
  else if s = "fok" then some OrderType.FOK
  else if s = "ioc" then some OrderType.FAK
  else none

/-- DIRECTION_OKX2VT: vendor side string to internal direction. -/
def DIRECTION_OKX2VT (s : String) : Option Direction :=
  if s = "buy" then some Direction.LONG
  else if s = "sell" then some Direction.SHORT
  else none

/-- A string-keyed dictionary with string values, as a lookup function. -/
def StrMap : Type := String → Option String

/-- Python dict assignment `m[k] = v`. -/
def mapInsert (m : StrMap) (k v : String) : StrMap :=
  fun q => if q = k then some v else m q

/-- Python set membership function for a set of strings. -/
def StrSet : Type := String → Bool

/-- Python `s.add(x)` on a set of strings. -/
def setInsert (s : StrSet) (x : String) : StrSet :=
  fun q => if q = x then true else s q

/-- The module-level identifier registry of okx_gateway.py: the set
`local_orderids`, and the two order-id maps `local_remote_orderid_map`
and `remote_local_algo_orderid_map`. -/
structure Registry where
  local_orderids : StrSet
  local_remote_orderid_map : StrMap
  remote_local_algo_orderid_map : StrMap

/-- The empty registry (module state at import time). -/
def Registry.empty : Registry :=
  { local_orderids := fun _ => false
    local_remote_orderid_map := fun _ => none
    remote_local_algo_orderid_map := fun _ => none }

/-- OrderData, with the fields populated by this gateway.  Price, volume
and traded size carry the raw vendor strings (float conversion is kept
symbolic); `datetime` is the millisecond timestamp. -/
structure OrderData where
  symbol : String
  exchange : String
  otype : OrderType
  orderid : String
  direction : Direction
  offset : Offset
  traded : String
  price : String
  volume : String
  datetime : Nat
  status : Status
deriving DecidableEq, Repr

/-- TradeData, with the fields populated by the private order handler.
`volume` carries the raw `fillSz` string (the `round_to` rounding over
contract metadata is float arithmetic, kept symbolic). -/
structure TradeData where
  symbol : String
  exchange : String
  orderid : String
  tradeid : String
  direction : Direction
  offset : Offset
  price : String
  volume : String
  datetime : Nat
deriving DecidableEq, Repr

/-- An event pushed to the external trading engine by the private order
handler. -/
inductive GwEvent where
  | order (o : OrderData)
  | trade (t : TradeData)
deriving DecidableEq, Repr

/-- One item of a private-channel `orders` push frame (the fields read by
`parse_order_data` and `OkxWebsocketPrivateApi.on_order`). -/
structure OrderPush where
  algoId : String
  clOrdId : String
  ordId : String
  instId : String
  ordType : String
  side : String
  accFillSz : String
  px : String
  sz : String
  cTime : Nat
  state : String
  fillSz : String
  fillPx : String
  tradeId : String
  uTime : Nat
deriving DecidableEq, Repr

/-- One item of an `orders-algo` push frame (the fields read by
`parse_stop_order_data` and the stop-order handlers). -/
structure AlgoPush where
  algoClOrdId : String
  algoId : String
  instId : String
  ordType : String
  side : String
  slTriggerPx : String
  tpTriggerPx : String
  sz : String
  cTime : Nat
  state : String
deriving DecidableEq, Repr

/-- Builds the OrderData literal of `parse_order_data` once the local
order id is known; `none` in a translation table models the Python
`KeyError` raised by the corresponding dict lookup. -/
def build_order_data (d : OrderPush) (local_order_id : String)
    (gateway_name : String) : Except String OrderData :=
  match ORDERTYPE_OKX2VT d.ordType with
  | none => Except.error "KeyError: ORDERTYPE_OKX2VT"
  | some t =>
    match DIRECTION_OKX2VT d.side with
    | none => Except.error "KeyError: DIRECTION_OKX2VT"
    | some dir =>
      match STATUS_OKX2VT d.state with
      | none => Except.error "KeyError: STATUS_OKX2VT"
      | some st =>
        Except.ok
          { symbol := d.instId
            exchange := "OKX"
            otype := t
            orderid := local_order_id
            direction := dir
            offset := Offset.NONE
            traded := d.accFillSz
            price := if d.px = "" then "0" else d.px
            volume := d.sz
            datetime := d.cTime
            status := st }
  -- gateway_name is carried by the OrderData object in the source; the
  -- embedding keys events by the remaining fields, so it is unused here.

/-- parse_order_data: decodes a regular-order push.  When `algoId` is
falsy the local id is `clOrdId`, which is recorded in `local_orderids`
and bound (by plain dict assignment) to `ordId` in
`local_remote_orderid_map`; otherwise the local id is looked up in
`remote_local_algo_orderid_map` (a missing key raises `KeyError`).  The
registry mutations happen before the enum lookups, so they survive a
decode error, which the pair-with-`Except` return type captures. -/
def parse_order_data (reg : Registry) (d : OrderPush) (gateway_name : String) :
    Registry × Except String OrderData :=
  if d.algoId = "" then
    let reg2 : Registry :=
      { reg with
        local_orderids := setInsert reg.local_orderids d.clOrdId
        local_remote_orderid_map :=
          mapInsert reg.local_remote_orderid_map d.clOrdId d.ordId }
    (reg2, build_order_data d d.clOrdId gateway_name)
  else
    match reg.remote_local_algo_orderid_map d.algoId with
    | none => (reg, Except.error "KeyError: remote_local_algo_orderid_map")
    | some local_order_id =>
      (reg, build_order_data d local_order_id gateway_name)

/-- convert_status of parse_stop_order_data: any state other than "live"
and "canceled" maps to REJECTED. -/
def convert_status (status : String) : Status :=
  if status = "live" then Status.NOTTRADED
  else if status = "canceled" then Status.CANCELLED
  else Status.REJECTED

/-- parse_stop_order_data: decodes an algo-order push.  When
`algoClOrdId` is truthy the three registry structures are updated first;
then a non-"conditional" `ordType` yields no order (`none`), and
otherwise the order literal is built (`DIRECTION_OKX2VT` can raise). -/
def parse_stop_order_data (reg : Registry) (d : AlgoPush)
    (gateway_name : String) : Registry × Except String (Option OrderData) :=
  let step : Registry × String :=
    if d.algoClOrdId = "" then (reg, d.algoId)
    else
      ({ local_orderids := setInsert reg.local_orderids d.algoClOrdId
         local_remote_orderid_map :=
           mapInsert reg.local_remote_orderid_map d.algoClOrdId d.algoId
         remote_local_algo_orderid_map :=
           mapInsert reg.remote_local_algo_orderid_map d.algoId d.algoClOrdId },
       d.algoClOrdId)
  let reg2 := step.1
  let order_id := step.2
  if d.ordType ≠ "conditional" then (reg2, Except.ok none)
  else
    match DIRECTION_OKX2VT d.side with
    | none => (reg2, Except.error "KeyError: DIRECTION_OKX2VT")
    | some dir =>
      (reg2, Except.ok (some
        { symbol := d.instId
          exchange := "OKX"
          otype := OrderType.STOP
          orderid := order_id
          direction := dir
          offset := Offset.NONE
          traded := ""
          price := if d.slTriggerPx ≠ "" then d.slTriggerPx else d.tpTriggerPx
          volume := d.sz
          datetime := d.cTime
          status := convert_status d.state }))

/-- The gateway order-state cache `self.orders`. -/
def OrderMap : Type := String → Option OrderData

/-- Empty order cache. -/
def OrderMap.empty : OrderMap := fun _ => none

end Vnpy

namespace Vnpy.OkxGateway

open Vnpy

/-- OkxGateway.on_order: if the cache already holds an order with this
local id, the incoming update's `offset` is replaced by the cached one;
the (possibly patched) order is then cached and emitted.  Returns the
updated cache and the emitted order. -/
def on_order (orders : OrderMap) (order : OrderData) : OrderMap × OrderData :=
  let order2 : OrderData :=
    match orders order.orderid with
    | some prev => { order with offset := prev.offset }
    | none => order
  (fun q => if q = order.orderid then some order2 else orders q, order2)

/-- OkxGateway.get_order: `self.orders.get(orderid, None)`. -/
def get_order (orders : OrderMap) (orderid : String) : Option OrderData :=
  orders orderid

end Vnpy.OkxGateway

namespace Vnpy

/-- A cancel request (vnpy.trader.object.CancelRequest): orderid plus the
symbol/exchange pair identifying the instrument. -/
structure CancelRequest where
  orderid : String
  symbol : String
  exchange : String
deriving DecidableEq, Repr

/-- vt_symbol of a request: `f"{symbol}.{exchange.value}"`. -/
def CancelRequest.vt_symbol (req : CancelRequest) : String :=
  req.symbol ++ "." ++ req.exchange

/-- The result of running the private-channel order-update handler: the
registry and order cache after the run, the events emitted to the engine
in order, and an optional pending exception (a `KeyError` escaping the
loop).  Events emitted before the exception are kept, matching Python's
side-effect semantics. -/
structure OrderHandlerResult where
  reg : Registry
  orders : OrderMap
  events : List GwEvent
  err : Option String

/-- The result of running a stop-order (algo) push handler. -/
structure StopHandlerResult where
  reg : Registry
  orders : OrderMap
  events : List OrderData
  err : Option String

/-- The TradeData literal synthesized by the private order handler for a
non-zero `fillSz` item. -/
def build_trade_data (order : OrderData) (d : OrderPush) : TradeData :=
  { symbol := order.symbol
    exchange := order.exchange
    orderid := order.orderid
    tradeid := d.tradeId
    direction := order.direction
    offset := order.offset
    price := d.fillPx
    volume := d.fillSz
    datetime := d.uTime }

end Vnpy

namespace Vnpy.OkxWebsocketPrivateApi

open Vnpy

/-- OkxWebsocketPrivateApi.on_order: for each item of the frame's data
array, decode it, run the gateway order upsert/emit, and, when `fillSz`
is exactly "0", RETURN from the handler (not continue), so the remaining
items of the same frame are never processed; otherwise synthesize and
emit a trade and move to the next item. -/
def on_order (reg : Registry) (orders : OrderMap) :
    List OrderPush → OrderHandlerResult
  | [] => { reg := reg, orders := orders, events := [], err := none }
  | d :: rest =>
    let parsed := parse_order_data reg d "OKX"
    match parsed.2 with
    | Except.error e =>
      { reg := parsed.1, orders := orders, events := [], err := some e }
    | Except.ok order =>
      let pushed := OkxGateway.on_order orders order
      if d.fillSz = "0" then
        { reg := parsed.1, orders := pushed.1
          events := [GwEvent.order pushed.2], err := none }
      else
        let trade := build_trade_data pushed.2 d
        let tail := on_order parsed.1 pushed.1 rest
        { reg := tail.reg, orders := tail.orders
          events := GwEvent.order pushed.2 :: GwEvent.trade trade :: tail.events
          err := tail.err }

end Vnpy.OkxWebsocketPrivateApi

namespace Vnpy

/-- The shared body of the two stop-order push handlers
(OkxWebsocketPrivateApi.on_stop_order and
OkxWebsocketBusinessApi.on_stop_order, which are textually identical):
items whose `state` is "effective" are skipped with `continue`; any
other item is decoded and, when the decoder returns an order, pushed
through the gateway order upsert/emit. -/
def stop_order_loop (reg : Registry) (orders : OrderMap) :
    List AlgoPush → StopHandlerResult
  | [] => { reg := reg, orders := orders, events := [], err := none }
  | d :: rest =>
    if d.state = "effective" then stop_order_loop reg orders rest
    else
      let parsed := parse_stop_order_data reg d "OKX"
      match parsed.2 with
      | Except.error e =>
        { reg := parsed.1, orders := orders, events := [], err := some e }
      | Except.ok none => stop_order_loop parsed.1 orders rest
      | Except.ok (some order) =>
        let pushed := OkxGateway.on_order orders order
        let tail := stop_order_loop parsed.1 pushed.1 rest
        { reg := tail.reg, orders := tail.orders
          events := pushed.2 :: tail.events, err := tail.err }

end Vnpy

namespace Vnpy.OkxWebsocketPrivateApi

open Vnpy

/-- OkxWebsocketPrivateApi.on_stop_order (lines 915-924). -/
def on_stop_order (reg : Registry) (orders : OrderMap)
    (data : List AlgoPush) : StopHandlerResult :=
  stop_order_loop reg orders data

/-- One argument object of a (batch) cancel wire message: keyed by
`clOrdId` when the order id is a known local id, by `ordId` otherwise. -/
inductive CancelArg where
  | clOrd (instId orderid : String)
  | ord (instId orderid : String)
deriving DecidableEq, Repr

/-- Builds the args dict for one cancel request, as done in both
`cancel_order` and `cancel_orders`. -/
def make_cancel_arg (ids : StrSet) (req : CancelRequest) : CancelArg :=
  if ids req.orderid then CancelArg.clOrd req.symbol req.orderid
  else CancelArg.ord req.symbol req.orderid

/-- The local helper `chunks` of OkxWebsocketPrivateApi.cancel_orders:
`[data[i : i + size] for i in range(0, len(data), size)]`. -/
def chunks {α : Type} (data : List α) (size : Nat) : List (List α) :=
  (List.range ((data.length + size - 1) / size)).map
    (fun k => (data.drop (k * size)).take size)

/-- OkxWebsocketPrivateApi.cancel_orders: splits the request list into
chunks of at most 15 and sends one `batch-cancel-orders` wire message
per chunk, each carrying the per-request args in input order.  Returns
the list of wire messages (each as its args list). -/
def cancel_orders (ids : StrSet) (requests : List CancelRequest) :
    List (List CancelArg) :=
  (chunks requests 15).map (fun chunk => chunk.map (make_cancel_arg ids))

end Vnpy.OkxWebsocketPrivateApi

namespace Vnpy.OkxWebsocketBusinessApi

open Vnpy

/-- OkxWebsocketBusinessApi.on_stop_order (lines 1226-1235; textually
identical to the private-channel handler). -/
def on_stop_order (reg : Registry) (orders : OrderMap)
    (data : List AlgoPush) : StopHandlerResult :=
  stop_order_loop reg orders data

end Vnpy.OkxWebsocketBusinessApi

namespace Vnpy.OkxGateway

open Vnpy

/-- An action dispatched by the gateway-level cancel entry points. -/
inductive CancelAction where
  | rest_cancel_stop (req : CancelRequest)
  | ws_cancel (req : CancelRequest)
  | ws_batch_cancel (reqs : List CancelRequest)
deriving DecidableEq, Repr

/-- The error raised by Python when `get_order` returns `None` and the
code then reads `.type` on it. -/
def attribute_error : String :=
  "AttributeError: NoneType has no attribute type"

/-- OkxGateway.cancel_order: looks the order up in the cache and reads
`order.type` without a None-guard; a cache miss therefore raises instead
of routing or logging.  Returns the dispatched actions and an optional
pending exception. -/
def cancel_order (orders : OrderMap) (req : CancelRequest) :
    List CancelAction × Option String :=
  match get_order orders req.orderid with
  | none => ([], some attribute_error)
  | some order =>
    if order.otype = OrderType.STOP then ([CancelAction.rest_cancel_stop req], none)
    else ([CancelAction.ws_cancel req], none)

/-- The loop of OkxGateway.cancel_orders, threading the accumulated
regular-order list; the trailing batch send happens only if the loop
finishes without an exception. -/
def cancel_orders_loop (orders : OrderMap) :
    List CancelRequest → List CancelRequest → List CancelAction × Option String
  | [], cancel_requests =>
    (if cancel_requests.isEmpty then []
     else [CancelAction.ws_batch_cancel cancel_requests], none)
  | req :: rest, cancel_requests =>
    match get_order orders req.orderid with
    | none => ([], some attribute_error)
    | some order =>
      if order.otype = OrderType.STOP then
        let tail := cancel_orders_loop orders rest cancel_requests
        (CancelAction.rest_cancel_stop req :: tail.1, tail.2)
      else
        cancel_orders_loop orders rest (cancel_requests ++ [req])

/-- OkxGateway.cancel_orders: per request, the same unguarded
`order.type` read as `cancel_order`; stop orders are cancelled over REST
one by one and the rest are batch-cancelled at the end. -/
def cancel_orders (orders : OrderMap) (requests : List CancelRequest) :
    List CancelAction × Option String :=
  cancel_orders_loop orders requests []

/-- OkxGateway.process_timer_event: `last` is `self.last_ping_timestamp`
and `current` the current timestamp (seconds); when less than 10 seconds
have elapsed nothing happens, otherwise the timestamp is reset and all
three WebSocket channels are pinged.  Returns the new timestamp and
whether pings were sent. -/
def process_timer_event (last current : Int) : Int × Bool :=
  if current - last < 10 then (last, false) else (current, true)

end Vnpy.OkxGateway

namespace Vnpy

/-- An inbound WebSocket frame after JSON decoding, restricted to the
fields the dispatchers classify on.  `argChannel` is
`packet["arg"]["channel"]` when present. -/
structure Packet where
  event : Option String
  op : Option String
  argChannel : Option String
deriving DecidableEq, Repr

end Vnpy

namespace Vnpy.OkxWebsocketApi

open Vnpy

/-- The frame a plain transport-level "pong" string is normalized to:
the dict literal `{"op": "ping"}`. -/
def ping_ack_frame : Packet :=
  { event := none, op := some "ping", argChannel := none }

/-- OkxWebsocketApi.unpack_data: a raw frame equal to "pong" becomes the
synthetic op-style frame; anything else goes through the inherited JSON
decoding, abstracted as `jsonLoads`. -/
def unpack_data (jsonLoads : String → Packet) (data : String) : Packet :=
  if data = "pong" then ping_ack_frame else jsonLoads data

end Vnpy.OkxWebsocketApi

namespace Vnpy.OkxWebsocketPrivateApi

open Vnpy

/-- The three-way frame classification of
OkxWebsocketPrivateApi.on_packet: `event` first, then `op`, else the
push channel name. -/
def callback_name (p : Packet) : Option String :=
  match p.event with
  | some e => some e
  | none =>
    match p.op with
    | some o => some o
    | none => p.argChannel

/-- Whether the private-channel callbacks table has an entry for a
name (its keys at construction time). -/
def has_callback (name : String) : Bool :=
  name = "login" || name = "orders" || name = "account" ||
    name = "positions" || name = "order" || name = "cancel-order" ||
    name = "error"

/-- OkxWebsocketPrivateApi.on_packet, reduced to which callback (if any)
the frame is dispatched to; `none` means the frame is dropped. -/
def on_packet (p : Packet) : Option String :=
  match callback_name p with
  | none => none
  | some n => if has_callback n then some n else none

end Vnpy.OkxWebsocketPrivateApi

namespace Vnpy

/-- One element of the `data` array of a candle response:
`[ts, o, h, l, c, vol, ...]`, with the timestamp already parsed. -/
structure CandleRow where
  ts : Nat
  o : String
  h : String
  l : String
  c : String
  vol : String
deriving DecidableEq, Repr

/-- A REST candle response: HTTP status code and decoded data array. -/
structure HttpResp where
  status : Nat
  data : List CandleRow
deriving DecidableEq, Repr

/-- BarData as built by query_history (price/volume strings kept raw,
`ts` standing for the parsed datetime key). -/
structure BarData where
  symbol : String
  ts : Nat
  volume : String
  open_price : String
  high_price : String
  low_price : String
  close_price : String
deriving DecidableEq, Repr

/-- The associative candle buffer `buf: Dict[datetime, BarData]`,
as an insertion-ordered association list. -/
abbrev Buf : Type := List (Nat × BarData)

/-- Python dict assignment `buf[k] = b`: replace in place when the key
exists, append otherwise. -/
def buf_insert (buf : Buf) (k : Nat) (b : BarData) : Buf :=
  if (buf.map Prod.fst).contains k then
    buf.map (fun p => if p.1 = k then (k, b) else p)
  else
    buf ++ [(k, b)]

/-- Dict lookup on the candle buffer. -/
def buf_lookup : Buf → Nat → Option BarData
  | [], _ => none
  | p :: rest, q => if q = p.1 then some p.2 else buf_lookup rest q

/-- The BarData built from one response row. -/
def make_bar (symbol : String) (row : CandleRow) : BarData :=
  { symbol := symbol
    ts := row.ts
    volume := row.vol
    open_price := row.o
    high_price := row.h
    low_price := row.l
    close_price := row.c }

/-- Insertion into a sorted key list, modelling one step of Python's
`index.sort()` on the buffer's keys. -/
def sort_insert (x : Nat) : List Nat → List Nat
  | [] => [x]
  | y :: ys => if x ≤ y then x :: y :: ys else y :: sort_insert x ys

/-- Ascending sort of the buffer's key list (`index.sort()`). -/
def sort_keys : List Nat → List Nat
  | [] => []
  | x :: xs => sort_insert x (sort_keys xs)

/-- The tail of query_history: `index = list(buf.keys()); index.sort();
history = [buf[i] for i in index]`. -/
def buf_finalize (buf : Buf) : List BarData :=
  (sort_keys (buf.map Prod.fst)).filterMap (buf_lookup buf)

end Vnpy

namespace Vnpy.OkxRestApi

open Vnpy

/-- The cursor parameters of one candle request: `before` (always the
fixed start cursor) and `after` (absent on the first request, the
running `end_time` afterwards). -/
structure CandleParams where
  before : Nat
  after : Option Nat
deriving DecidableEq, Repr

/-- The pagination loop of OkxRestApi.query_history (`for i in
range(15)`), against an abstract transport `server` mapping request
params to a response.  Returns the final buffer together with the trace
of issued requests and their responses.  A non-2xx status or an empty
data page breaks the loop; otherwise every row is inserted into the
buffer and `end_time` becomes the timestamp of the last-listed row of
the page (`begin = data["data"][-1][0]`). -/
def query_pages (server : CandleParams → HttpResp) (symbol : String)
    (start_time : Nat) :
    Nat → Option Nat → Buf → Buf × List (CandleParams × HttpResp)
  | 0, _, buf => (buf, [])
  | fuel + 1, end_time, buf =>
    let params : CandleParams := { before := start_time, after := end_time }
    let resp := server params
    if resp.status / 100 ≠ 2 then (buf, [(params, resp)])
    else
      match resp.data.getLast? with
      | none => (buf, [(params, resp)])
      | some last_row =>
        let buf2 := resp.data.foldl
          (fun b row => buf_insert b row.ts (make_bar symbol row)) buf
        let tail := query_pages server symbol start_time fuel
          (some last_row.ts) buf2
        (tail.1, (params, resp) :: tail.2)

/-- OkxRestApi.query_history: run the 15-page loop from an empty buffer
with no `after` cursor, then deduplicate/sort via the buffer.
`start_time` stands for `int(req.start.timestamp() * 1e3 - 1)`. -/
def query_history (server : CandleParams → HttpResp) (symbol : String)
    (start_time : Nat) : List BarData :=
  buf_finalize (query_pages server symbol start_time 15 none []).1

/-- The request trace of one query_history run: the `(before, after)`
cursor pairs issued, in order, with the responses received. -/
def query_trace (server : CandleParams → HttpResp) (symbol : String)
    (start_time : Nat) : List (CandleParams × HttpResp) :=
  (query_pages server symbol start_time 15 none []).2

/-- One wire entry of a `cancel-algos` REST request. -/
structure WireCancelAlgo where
  instId : String
  algoId : String
deriving DecidableEq, Repr

/-- OkxRestApi.cancel_stop_order: when the local order id has no entry
in `local_remote_orderid_map` the method returns immediately — nothing
is sent and nothing is logged; otherwise one `cancel-algos` request
keyed by the bound algo id is sent.  Returns the wire requests sent and
the log lines written. -/
def cancel_stop_order (reg : Registry) (req : CancelRequest) :
    List WireCancelAlgo × List String :=
  match reg.local_remote_orderid_map req.orderid with
  | none => ([], [])
  | some remote_order_id =>
    ([{ instId := req.symbol, algoId := remote_order_id }], [])

end Vnpy.OkxRestApi

namespace Vnpy.RpcGateway

open Vnpy

/-- RpcGateway.cancel_orders, grouping phase: requests are appended, in
input order, to the bucket of the downstream gateway owning their
vt_symbol (`symbol_gateway_map.get(req.vt_symbol, "")`, a defaultdict of
lists).  The result maps each gateway name to its request list. -/
def cancel_orders_grouping (symbol_gateway_map : String → Option String)
    (requests : List CancelRequest) : String → List CancelRequest :=
  requests.foldl
    (fun m req =>
      let gateway_name := (symbol_gateway_map req.vt_symbol).getD ""
      fun q => if q = gateway_name then m q ++ [req] else m q)
    (fun _ => [])

end Vnpy.RpcGateway

namespace Vnpy

/-- A regular-order push binding local id "L1" to remote id "R1". -/
def c1_push1 : OrderPush :=
  { algoId := ""
    clOrdId := "L1"
    ordId := "R1"
    instId := "BTC-USDT"
    ordType := "limit"
    side := "buy"
    accFillSz := "0"
    px := "100"
    sz := "2"
    cTime := 1700000000000
    state := "live"
    fillSz := "0"
    fillPx := ""
    tradeId := ""
    uTime := 1700000000000 }

/-- The same push with a different remote id "R2" for local id "L1". -/
def c1_push2 : OrderPush := { c1_push1 with ordId := "R2" }

/-- The registry after processing `c1_push1` from the empty registry. -/
def c1_reg1 : Registry := (parse_order_data Registry.empty c1_push1 "OKX").1

/-- Candle server for the pagination trace: the first request (no
`after` cursor) is answered with a newest-first page holding timestamps
500 and 400; any cursored request is answered with an empty page. -/
def c2_server (p : OkxRestApi.CandleParams) : HttpResp :=
  if p.after = none then
    { status := 200
      data := [{ ts := 500, o := "5", h := "5", l := "5", c := "5", vol := "1" },
               { ts := 400, o := "4", h := "4", l := "4", c := "4", vol := "1" }] }
  else { status := 200, data := [] }

/-- An order previously cached for local id "L1", with a known offset. -/
def w3_prev : OrderData :=
  { symbol := "BTC-USDT"
    exchange := "OKX"
    otype := OrderType.LIMIT
    orderid := "L1"
    direction := Direction.LONG
    offset := Offset.OPEN
    traded := "0"
    price := "100"
    volume := "2"
    datetime := 1700000000000
    status := Status.NOTTRADED }

/-- A later update for the same local id arriving without an offset
(the decoder fills `Offset.NONE`). -/
def w3_new : OrderData :=
  { w3_prev with offset := Offset.NONE, status := Status.ALLTRADED }

/-- Order cache holding only `w3_prev` under "L1". -/
def w3_orders : OrderMap := fun q => if q = "L1" then some w3_prev else none

/-- An algo push in state "effective" (trigger fired). -/
def w4_push : AlgoPush :=
  { algoClOrdId := "L9"
    algoId := "A9"
    instId := "BTC-USDT"
    ordType := "conditional"
    side := "buy"
    slTriggerPx := "95"
    tpTriggerPx := ""
    sz := "1"
    cTime := 1700000000000
    state := "effective" }

/-- A cancel request whose order id was never bound nor cached. -/
def c6_req : CancelRequest :=
  { orderid := "X1", symbol := "BTC-USDT", exchange := "OKX" }

/-- A second never-bound cancel request. -/
def w6_req : CancelRequest :=
  { orderid := "Y1", symbol := "ETH-USDT", exchange := "OKX" }

/-- A sample cancel request for the chunking property. -/
def sample_req : CancelRequest :=
  { orderid := "2312010000000001", symbol := "BTC-USDT", exchange := "OKX" }

/-- A cancel request whose order id was never emitted through on_order
(absent from the gateway order cache). -/
def w10_req : CancelRequest :=
  { orderid := "Z1", symbol := "BTC-USDT", exchange := "OKX" }

/-- A zero-fill regular-order push (fillSz = "0"). -/
def w9_z : OrderPush := c1_push1

/-- A later item of the same frame, which the early return drops. -/
def w9_tail : OrderPush :=
  { c1_push1 with clOrdId := "L2", ordId := "R3", fillSz := "1", state := "filled" }

end Vnpy

namespace Vnpy

/-!  Helper development: the chunk splitter. -/

/-- Recursive characterization of `chunks · 15`: take a 15-prefix, recurse
on the rest. -/
def chunks_rec {α : Type} : List α → List (List α)
  | [] => []
  | x :: xs => (x :: xs).take 15 :: chunks_rec ((x :: xs).drop 15)
termination_by l => l.length
decreasing_by
  simp only [List.drop, List.length_drop, List.length_cons]
  omega

theorem chunks_eq_chunks_rec {α : Type} (l : List α) :
    OkxWebsocketPrivateApi.chunks l 15 = chunks_rec l := by
  have H : ∀ (n : Nat) (l : List α), l.length ≤ n →
      OkxWebsocketPrivateApi.chunks l 15 = chunks_rec l := by
    intro n
    induction n with
    | zero =>
      intro l hl
      have hnil : l = [] := List.eq_nil_of_length_eq_zero (Nat.le_zero.mp hl)
      subst hnil
      simp [OkxWebsocketPrivateApi.chunks, chunks_rec]
    | succ n ih =>
      intro l hl
      cases l with
      | nil => simp [OkxWebsocketPrivateApi.chunks, chunks_rec]
      | cons x xs =>
        rw [chunks_rec]
        have hcount : ((x :: xs).length + 15 - 1) / 15 =
            (((x :: xs).drop 15).length + 15 - 1) / 15 + 1 := by
          simp only [List.length_drop, List.length_cons]
          omega
        rw [OkxWebsocketPrivateApi.chunks, hcount, List.range_succ_eq_map]
        simp only [List.map_cons, List.map_map, Nat.zero_mul, List.drop_zero]
        congr 1
        have hlen : ((x :: xs).drop 15).length ≤ n := by
          simp only [List.length_drop, List.length_cons]
          simp only [List.length_cons] at hl
          omega
        rw [← ih ((x :: xs).drop 15) hlen]
        rw [OkxWebsocketPrivateApi.chunks]
        apply List.map_congr_left
        intro k _
        simp only [Function.comp_apply]
        rw [List.drop_drop]
        congr 2
        omega
  exact H l.length l le_rfl

theorem chunks_rec_flatten {α : Type} (l : List α) :
    (chunks_rec l).flatten = l := by
  have H : ∀ (n : Nat) (l : List α), l.length ≤ n → (chunks_rec l).flatten = l := by
    intro n
    induction n with
    | zero =>
      intro l hl
      have hnil : l = [] := List.eq_nil_of_length_eq_zero (Nat.le_zero.mp hl)
      subst hnil
      simp [chunks_rec]
    | succ n ih =>
      intro l hl
      cases l with
      | nil => simp [chunks_rec]
      | cons x xs =>
        rw [chunks_rec]
        simp only [List.flatten_cons]
        have hlen : ((x :: xs).drop 15).length ≤ n := by
          simp only [List.length_drop, List.length_cons]
          simp only [List.length_cons] at hl
          omega
        rw [ih ((x :: xs).drop 15) hlen]
        exact List.take_append_drop 15 (x :: xs)
  exact H l.length l le_rfl

theorem chunks_rec_mem_length {α : Type} (l : List α) (c : List α)
    (hc : c ∈ chunks_rec l) : c.length ≤ 15 := by
  have H : ∀ (n : Nat) (l : List α), l.length ≤ n →
      ∀ c, c ∈ chunks_rec l → c.length ≤ 15 := by
    intro n
    induction n with
    | zero =>
      intro l hl c hcm
      have hnil : l = [] := List.eq_nil_of_length_eq_zero (Nat.le_zero.mp hl)
      subst hnil
      simp [chunks_rec] at hcm
    | succ n ih =>
      intro l hl c hcm
      cases l with
      | nil => simp [chunks_rec] at hcm
      | cons x xs =>
        rw [chunks_rec] at hcm
        rcases List.mem_cons.mp hcm with hcm | hcm
        · subst hcm
          simpa using List.length_take_le 15 (x :: xs)
        · have hlen : ((x :: xs).drop 15).length ≤ n := by
            simp only [List.length_drop, List.length_cons]
            simp only [List.length_cons] at hl
            omega
          exact ih ((x :: xs).drop 15) hlen c hcm
  exact H l.length l le_rfl c hc

end Vnpy

namespace Vnpy

/-!  Helper development: the key sort and the candle buffer. -/

theorem sort_insert_perm (x : Nat) (l : List Nat) :
    (sort_insert x l).Perm (x :: l) := by
  induction l with
  | nil => simp [sort_insert]
  | cons y ys ih =>
    rw [sort_insert]
    by_cases h : x ≤ y
    · simp [h]
    · simp only [h, if_false]
      exact (ih.cons y).trans (List.Perm.swap x y ys)

theorem sort_insert_sorted (x : Nat) (l : List Nat)
    (hl : List.Pairwise (· ≤ ·) l) :
    List.Pairwise (· ≤ ·) (sort_insert x l) := by
  induction l with
  | nil => simp [sort_insert]
  | cons y ys ih =>
    rw [sort_insert]
    by_cases h : x ≤ y
    · simp only [h, if_true]
      refine List.pairwise_cons.mpr ⟨?_, hl⟩
      intro z hz
      rcases List.mem_cons.mp hz with hz | hz
      · exact hz ▸ h
      · exact Nat.le_trans h ((List.pairwise_cons.mp hl).1 z hz)
    · simp only [h, if_false]
      have hy : y ≤ x := Nat.le_of_not_le h
      refine List.pairwise_cons.mpr ⟨?_, ih (List.pairwise_cons.mp hl).2⟩
      intro z hz
      rcases List.mem_cons.mp ((sort_insert_perm x ys).mem_iff.mp hz) with hz | hz
      · exact hz ▸ hy
      · exact (List.pairwise_cons.mp hl).1 z hz

theorem sort_keys_perm (l : List Nat) : (sort_keys l).Perm l := by
  induction l with
  | nil => simp [sort_keys]
  | cons x xs ih =>
    rw [sort_keys]
    exact (sort_insert_perm x (sort_keys xs)).trans (ih.cons x)

theorem sort_keys_sorted (l : List Nat) :
    List.Pairwise (· ≤ ·) (sort_keys l) := by
  induction l with
  | nil => simp [sort_keys]
  | cons x xs ih => exact sort_insert_sorted x (sort_keys xs) ih

theorem sort_keys_pairwise_lt (l : List Nat) (hl : l.Nodup) :
    List.Pairwise (· < ·) (sort_keys l) := by
  have hnd : (sort_keys l).Nodup := (sort_keys_perm l).nodup_iff.mpr hl
  exact ((sort_keys_sorted l).and hnd).imp
    (fun h => Nat.lt_of_le_of_ne h.1 h.2)

/-- Well-formedness of the candle buffer: keys are distinct and each
entry is stored under its own timestamp. -/
def BufWf (buf : Buf) : Prop :=
  (buf.map Prod.fst).Nodup ∧ ∀ p ∈ buf, (p.2).ts = p.1

theorem buf_replace_keys (buf : Buf) (k : Nat) (b : BarData) :
    (buf.map (fun p => if p.1 = k then (k, b) else p)).map Prod.fst =
      buf.map Prod.fst := by
  rw [List.map_map]
  apply List.map_congr_left
  intro p _
  by_cases hp : p.1 = k
  · simp [Function.comp_apply, hp]
  · simp [Function.comp_apply, hp]

theorem buf_insert_keys (buf : Buf) (k : Nat) (b : BarData) :
    (buf_insert buf k b).map Prod.fst =
      if (buf.map Prod.fst).contains k then buf.map Prod.fst
      else buf.map Prod.fst ++ [k] := by
  rw [buf_insert]
  by_cases h : (buf.map Prod.fst).contains k
  · simp only [h, if_true]
    exact buf_replace_keys buf k b
  · simp only [h, if_false]
    simp

theorem buf_insert_nodup (buf : Buf) (k : Nat) (b : BarData)
    (h : (buf.map Prod.fst).Nodup) :
    ((buf_insert buf k b).map Prod.fst).Nodup := by
  rw [buf_insert_keys]
  cases hc : (buf.map Prod.fst).contains k with
  | true => simpa using h
  | false =>
    simp only [Bool.false_eq_true, if_false]
    rw [List.nodup_append]
    refine ⟨h, List.nodup_singleton k, ?_⟩
    intro a ha hak
    simp only [List.mem_singleton] at hak
    have hnm : k ∉ buf.map Prod.fst := by simpa using hc
    exact hnm (hak ▸ ha)

theorem buf_insert_wf (buf : Buf) (k : Nat) (b : BarData)
    (hwf : BufWf buf) (hb : b.ts = k) : BufWf (buf_insert buf k b) := by
  refine ⟨buf_insert_nodup buf k b hwf.1, ?_⟩
  intro p hp
  rw [buf_insert] at hp
  by_cases hc : (buf.map Prod.fst).contains k
  · simp only [hc, if_true] at hp
    rcases List.mem_map.mp hp with ⟨q, hq, hqe⟩
    by_cases hqk : q.1 = k
    · simp only [hqk, if_true] at hqe
      subst hqe
      exact hb
    · simp only [hqk, if_false] at hqe
      subst hqe
      exact hwf.2 q hq
  · simp only [hc, if_false] at hp
    rcases List.mem_append.mp hp with hp | hp
    · exact hwf.2 p hp
    · simp only [List.mem_singleton] at hp
      subst hp
      exact hb

theorem buf_lookup_replace (buf : Buf) (k : Nat) (b : BarData)
    (h : k ∈ buf.map Prod.fst) :
    buf_lookup (buf.map (fun p => if p.1 = k then (k, b) else p)) k = some b := by
  induction buf with
  | nil => simp at h
  | cons p rest ih =>
    simp only [List.map_cons]
    by_cases hp : p.1 = k
    · simp only [hp, if_true]
      rw [buf_lookup]
      simp
    · simp only [hp, if_false]
      rw [buf_lookup]
      have hk : ¬(k = p.1) := fun he => hp he.symm
      simp only [hk, if_false]
      apply ih
      simp only [List.map_cons, List.mem_cons] at h
      rcases h with h | h
      · exact absurd h.symm hp
      · exact h

theorem buf_lookup_append_self (buf : Buf) (k : Nat) (b : BarData)
    (h : k ∉ buf.map Prod.fst) :
    buf_lookup (buf ++ [(k, b)]) k = some b := by
  induction buf with
  | nil => simp [buf_lookup]
  | cons p rest ih =>
    simp only [List.cons_append]
    rw [buf_lookup]
    have hk : ¬(k = p.1) := by
      intro he
      exact h (by simp [he])
    simp only [hk, if_false]
    exact ih (fun hm => h (by simp [hm]))

theorem buf_lookup_insert_self (buf : Buf) (k : Nat) (b : BarData) :
    buf_lookup (buf_insert buf k b) k = some b := by
  rw [buf_insert]
  by_cases hc : (buf.map Prod.fst).contains k
  · simp only [hc, if_true]
    apply buf_lookup_replace
    simpa using hc
  · simp only [hc, if_false]
    apply buf_lookup_append_self
    simpa using hc

theorem buf_lookup_of_mem (buf : Buf) (k : Nat)
    (h : k ∈ buf.map Prod.fst) :
    ∃ b, buf_lookup buf k = some b ∧ (k, b) ∈ buf := by
  induction buf with
  | nil => simp at h
  | cons p rest ih =>
    rw [buf_lookup]
    by_cases hp : k = p.1
    · refine ⟨p.2, by simp [hp], ?_⟩
      simp only [List.mem_cons]
      left
      rw [hp]
    · simp only [hp, if_false]
      simp only [List.map_cons, List.mem_cons] at h
      rcases h with h | h
      · exact absurd h hp
      · rcases ih h with ⟨b, hb, hbm⟩
        exact ⟨b, hb, List.mem_cons_of_mem p hbm⟩

theorem buf_filterMap_ts (buf : Buf) (hwf : BufWf buf) :
    ∀ ks : List Nat, (∀ k ∈ ks, k ∈ buf.map Prod.fst) →
      ((ks.filterMap (buf_lookup buf)).map BarData.ts) = ks := by
  intro ks
  induction ks with
  | nil => intro _; simp
  | cons k ks ih =>
    intro hsub
    rcases buf_lookup_of_mem buf k (hsub k (by simp)) with ⟨b, hb, hbm⟩
    have hts : b.ts = k := hwf.2 (k, b) hbm
    simp only [List.filterMap_cons, hb, List.map_cons, hts]
    rw [ih (fun q hq => hsub q (List.mem_cons_of_mem k hq))]

theorem buf_finalize_pairwise (buf : Buf) (hwf : BufWf buf) :
    List.Pairwise (· < ·) ((buf_finalize buf).map BarData.ts) := by
  rw [buf_finalize]
  rw [buf_filterMap_ts buf hwf (sort_keys (buf.map Prod.fst))
    (fun k hk => (sort_keys_perm (buf.map Prod.fst)).mem_iff.mp hk)]
  exact sort_keys_pairwise_lt (buf.map Prod.fst) hwf.1

end Vnpy

namespace Vnpy

/-!  Helper development: the pagination loop. -/

/-- The relation holding between consecutive entries of a pagination
trace: a request that is followed by another one was answered with a
2xx status and a nonempty page, and the follow-up request's `after`
cursor is the timestamp of the last-listed row of that page. -/
def page_step (x y : OkxRestApi.CandleParams × HttpResp) : Prop :=
  x.2.status / 100 = 2 ∧ x.2.data ≠ [] ∧
    y.1.after = (x.2.data.getLast?).map CandleRow.ts

theorem query_pages_buf_wf (server : OkxRestApi.CandleParams → HttpResp)
    (symbol : String) (start_time : Nat) :
    ∀ (fuel : Nat) (end_time : Option Nat) (buf : Buf), BufWf buf →
      BufWf (OkxRestApi.query_pages server symbol start_time fuel end_time buf).1 := by
  intro fuel
  induction fuel with
  | zero => intro e buf h; exact h
  | succ fuel ih =>
    intro e buf h
    rw [OkxRestApi.query_pages]
    by_cases hs : (server { before := start_time, after := e }).status / 100 ≠ 2
    · simpa [hs] using h
    · simp only [hs, if_false]
      cases hlast : (server { before := start_time, after := e }).data.getLast? with
      | none => exact h
      | some last_row =>
        simp only
        apply ih
        have hfold : ∀ (rows : List CandleRow) (b : Buf), BufWf b →
            BufWf (rows.foldl
              (fun b row => buf_insert b row.ts (make_bar symbol row)) b) := by
          intro rows
          induction rows with
          | nil => intro b hb; exact hb
          | cons r rows ihr =>
            intro b hb
            exact ihr _ (buf_insert_wf b r.ts (make_bar symbol r) hb rfl)
        exact hfold _ buf h

theorem query_pages_trace_length (server : OkxRestApi.CandleParams → HttpResp)
    (symbol : String) (start_time : Nat) :
    ∀ (fuel : Nat) (end_time : Option Nat) (buf : Buf),
      (OkxRestApi.query_pages server symbol start_time fuel end_time buf).2.length ≤ fuel := by
  intro fuel
  induction fuel with
  | zero => intro e buf; simp [OkxRestApi.query_pages]
  | succ fuel ih =>
    intro e buf
    rw [OkxRestApi.query_pages]
    by_cases hs : (server { before := start_time, after := e }).status / 100 ≠ 2
    · simp [hs]
    · simp only [hs, if_false]
      cases hlast : (server { before := start_time, after := e }).data.getLast? with
      | none => simp
      | some last_row =>
        simp only [List.length_cons]
        have := ih (some last_row.ts)
          ((server { before := start_time, after := e }).data.foldl
            (fun b row => buf_insert b row.ts (make_bar symbol row)) buf)
        omega

theorem query_pages_trace_before (server : OkxRestApi.CandleParams → HttpResp)
    (symbol : String) (start_time : Nat) :
    ∀ (fuel : Nat) (end_time : Option Nat) (buf : Buf),
      ∀ x ∈ (OkxRestApi.query_pages server symbol start_time fuel end_time buf).2,
        x.1.before = start_time := by
  intro fuel
  induction fuel with
  | zero => intro e buf x hx; simp [OkxRestApi.query_pages] at hx
  | succ fuel ih =>
    intro e buf x hx
    rw [OkxRestApi.query_pages] at hx
    by_cases hs : (server { before := start_time, after := e }).status / 100 ≠ 2
    · rw [if_pos hs] at hx
      simp at hx
      subst hx
      rfl
    · rw [if_neg hs] at hx
      cases hlast : (server { before := start_time, after := e }).data.getLast? with
      | none =>
        rw [hlast] at hx
        simp at hx
        subst hx
        rfl
      | some last_row =>
        rw [hlast] at hx
        simp only [List.mem_cons] at hx
        rcases hx with hx | hx
        · subst hx
          rfl
        · exact ih (some last_row.ts) _ x hx

theorem query_pages_trace_head (server : OkxRestApi.CandleParams → HttpResp)
    (symbol : String) (start_time : Nat) :
    ∀ (fuel : Nat) (end_time : Option Nat) (buf : Buf) (x : OkxRestApi.CandleParams × HttpResp),
      (OkxRestApi.query_pages server symbol start_time fuel end_time buf).2.head? = some x →
        x.1 = { before := start_time, after := end_time } := by
  intro fuel
  cases fuel with
  | zero => intro e buf x hx; simp [OkxRestApi.query_pages] at hx
  | succ fuel =>
    intro e buf x hx
    rw [OkxRestApi.query_pages] at hx
    by_cases hs : (server { before := start_time, after := e }).status / 100 ≠ 2
    · rw [if_pos hs] at hx
      simp at hx
      rw [← hx]
    · rw [if_neg hs] at hx
      cases hlast : (server { before := start_time, after := e }).data.getLast? with
      | none =>
        rw [hlast] at hx
        simp at hx
        rw [← hx]
      | some last_row =>
        rw [hlast] at hx
        simp at hx
        rw [← hx]

theorem query_pages_trace_chain (server : OkxRestApi.CandleParams → HttpResp)
    (symbol : String) (start_time : Nat) :
    ∀ (fuel : Nat) (end_time : Option Nat) (buf : Buf),
      List.Chain' page_step
        (OkxRestApi.query_pages server symbol start_time fuel end_time buf).2 := by
  intro fuel
  induction fuel with
  | zero => intro e buf; simp [OkxRestApi.query_pages]
  | succ fuel ih =>
    intro e buf
    rw [OkxRestApi.query_pages]
    by_cases hs : (server { before := start_time, after := e }).status / 100 ≠ 2
    · rw [if_pos hs]
      simp
    · rw [if_neg hs]
      cases hlast : (server { before := start_time, after := e }).data.getLast? with
      | none => simp
      | some last_row =>
        simp only
        rw [List.chain'_cons']
        refine ⟨?_, ih (some last_row.ts) _⟩
        intro y hy
        have hy1 := query_pages_trace_head server symbol start_time fuel
          (some last_row.ts) _ y hy
        have hs2 : (server { before := start_time, after := e }).status / 100 = 2 :=
          not_ne_iff.mp hs
        refine ⟨hs2, ?_, ?_⟩
        · intro hnil
          rw [hnil] at hlast
          simp at hlast
        · rw [hy1, hlast]
          rfl

end Vnpy

namespace Vnpy

/-!  Helper development: grouping, skipping, error propagation. -/

theorem rpc_grouping_foldl (symbol_gateway_map : String → Option String)
    (requests : List CancelRequest) :
    ∀ (acc : String → List CancelRequest) (g : String),
      (requests.foldl
        (fun m req =>
          let gateway_name := (symbol_gateway_map req.vt_symbol).getD ""
          fun q => if q = gateway_name then m q ++ [req] else m q)
        acc) g =
      acc g ++ requests.filter
        (fun r => ((symbol_gateway_map r.vt_symbol).getD "") == g) := by
  induction requests with
  | nil => intro acc g; simp
  | cons req rest ih =>
    intro acc g
    simp only [List.foldl_cons, List.filter_cons]
    by_cases hg : ((symbol_gateway_map req.vt_symbol).getD "") = g
    · rw [ih]
      simp only [hg, beq_self_eq_true, if_true]
      simp [List.append_assoc]
    · rw [ih]
      have hb : (((symbol_gateway_map req.vt_symbol).getD "") == g) = false :=
        beq_false_of_ne hg
      simp only [hb, if_false]
      have hq : ¬(g = (symbol_gateway_map req.vt_symbol).getD "") :=
        fun he => hg he.symm
      simp [hq]

theorem stop_order_loop_skip (d : AlgoPush) (hd : d.state = "effective") :
    ∀ (pre : List AlgoPush) (reg : Registry) (orders : OrderMap)
      (post : List AlgoPush),
      stop_order_loop reg orders (pre ++ d :: post) =
        stop_order_loop reg orders (pre ++ post) := by
  intro pre
  induction pre with
  | nil =>
    intro reg orders post
    simp only [List.nil_append]
    rw [stop_order_loop, if_pos hd]
  | cons a pre ih =>
    intro reg orders post
    simp only [List.cons_append]
    rw [stop_order_loop]
    conv_rhs => rw [stop_order_loop]
    by_cases ha : a.state = "effective"
    · rw [if_pos ha, if_pos ha]
      exact ih reg orders post
    · rw [if_neg ha, if_neg ha]
      dsimp only
      generalize (parse_stop_order_data reg a "OKX").2 = p2
      cases p2 with
      | error e => rfl
      | ok res =>
        cases res with
        | none => exact ih _ orders post
        | some order => simp only [ih]

theorem cancel_orders_loop_err (orders : OrderMap) :
    ∀ (reqs : List CancelRequest) (acc : List CancelRequest),
      (∃ r ∈ reqs, OkxGateway.get_order orders r.orderid = none) →
      (OkxGateway.cancel_orders_loop orders reqs acc).2 =
        some OkxGateway.attribute_error := by
  intro reqs
  induction reqs with
  | nil =>
    intro acc h
    rcases h with ⟨r, hr, _⟩
    simp at hr
  | cons req rest ih =>
    intro acc h
    rw [OkxGateway.cancel_orders_loop]
    cases hq : OkxGateway.get_order orders req.orderid with
    | none => rfl
    | some order =>
      have hrest : ∃ r ∈ rest, OkxGateway.get_order orders r.orderid = none := by
        rcases h with ⟨r, hr, hnone⟩
        rcases List.mem_cons.mp hr with hr | hr
        · rw [hr] at hnone
          rw [hnone] at hq
          cases hq
        · exact ⟨r, hr, hnone⟩
      dsimp only
      by_cases ht : order.otype = OrderType.STOP
      · rw [if_pos ht]
        exact ih acc hrest
      · rw [if_neg ht]
        exact ih (acc ++ [req]) hrest

end Vnpy

namespace Vnpy

/-- Flattening a chunked list mapped elementwise recovers the mapped
input. -/
theorem flatten_map_map {α β : Type} (f : α → β) (L : List (List α)) :
    (L.map (fun c => c.map f)).flatten = L.flatten.map f := by
  induction L with
  | nil => rfl
  | cons c L ih =>
    simp only [List.map_cons, List.flatten_cons, List.map_append, ih]

/-- Zero-fill early return of the private order handler: once an item
with `fillSz = "0"` is reached, everything after it is ignored. -/
theorem on_order_zero_fill_stops (z : OrderPush) (h : z.fillSz = "0") :
    ∀ (pre : List OrderPush) (reg : Registry) (orders : OrderMap)
      (post : List OrderPush),
      OkxWebsocketPrivateApi.on_order reg orders (pre ++ z :: post) =
        OkxWebsocketPrivateApi.on_order reg orders (pre ++ [z]) := by
  intro pre
  induction pre with
  | nil =>
    intro reg orders post
    simp only [List.nil_append]
    rw [OkxWebsocketPrivateApi.on_order]
    conv_rhs => rw [OkxWebsocketPrivateApi.on_order]
    dsimp only
    generalize (parse_order_data reg z "OKX").2 = p2
    cases p2 with
    | error e => rfl
    | ok order =>
      dsimp only
      rw [if_pos h, if_pos h]
  | cons a pre ih =>
    intro reg orders post
    simp only [List.cons_append]
    rw [OkxWebsocketPrivateApi.on_order]
    conv_rhs => rw [OkxWebsocketPrivateApi.on_order]
    dsimp only
    generalize (parse_order_data reg a "OKX").2 = p2
    cases p2 with
    | error e => rfl
    | ok order =>
      dsimp only
      by_cases hf : a.fillSz = "0"
      · rw [if_pos hf, if_pos hf]
      · rw [if_neg hf, if_neg hf]
        simp only [ih]

/-- Claim C1 (as frozen, refuted): binding local id "L1", already bound
to remote id "R1", to the different remote id "R2" raises no error
condition — the decode succeeds — and the original mapping is NOT left
intact: the lookup afterwards returns "R2". -/
theorem claim_C1_counterexample :
    c1_reg1.local_remote_orderid_map "L1" = some "R1" ∧
    (parse_order_data c1_reg1 c1_push2 "OKX").1.local_remote_orderid_map "L1" =
      some "R2" ∧
    (some "R2" : Option String) ≠ some "R1" ∧
    (parse_order_data c1_reg1 c1_push2 "OKX").2.toOption.isSome = true := by
  exact ⟨rfl, rfl, by decide, rfl⟩

/-- Claim C1 (amended): binding a local order id that is already bound
to a remote id silently overwrites the local-to-remote mapping with the
new remote id (no error is signalled; the binding is a total plain dict
assignment), leaves every other key unchanged, and rebinding the same
(local, remote) pair leaves the mapping extensionally unchanged (an
idempotent no-op). -/
theorem claim_C1_amended (reg : Registry) (d : OrderPush) (r1 : String)
    (h1 : d.algoId = "")
    (h2 : reg.local_remote_orderid_map d.clOrdId = some r1) :
    ((parse_order_data reg d "OKX").1.local_remote_orderid_map d.clOrdId =
      some d.ordId) ∧
    (∀ q, q ≠ d.clOrdId →
      (parse_order_data reg d "OKX").1.local_remote_orderid_map q =
        reg.local_remote_orderid_map q) ∧
    (d.ordId = r1 →
      (parse_order_data reg d "OKX").1.local_remote_orderid_map =
        reg.local_remote_orderid_map) := by
  rw [parse_order_data, if_pos h1]
  refine ⟨by simp [mapInsert], ?_, ?_⟩
  · intro q hq
    simp [mapInsert, hq]
  · intro hid
    funext q
    by_cases hq : q = d.clOrdId
    · subst hq
      simp [mapInsert, h2, hid]
    · simp [mapInsert, hq]

/-- Witness for C1 (amended) at a concrete rebinding of the same
(local, remote) pair. -/
theorem claim_C1_witness :
    (parse_order_data c1_reg1 c1_push1 "OKX").1.local_remote_orderid_map "L1" =
      some "R1" ∧
    (parse_order_data c1_reg1 c1_push1 "OKX").1.local_remote_orderid_map =
      c1_reg1.local_remote_orderid_map := by
  have h := claim_C1_amended c1_reg1 c1_push1 "R1" rfl rfl
  exact ⟨h.1, h.2.2 rfl⟩

/-- Claim C3: when the order cache already holds an order with the same
local id, the upsert copies the cached `offset` forward onto the update
before it is stored and emitted, so an update that omits offset never
erases the previously known value. -/
theorem claim_C3 (orders : OrderMap) (update prev : OrderData)
    (h : orders update.orderid = some prev) :
    (OkxGateway.on_order orders update).2.offset = prev.offset ∧
    (OkxGateway.on_order orders update).1 update.orderid =
      some (OkxGateway.on_order orders update).2 := by
  constructor
  · simp [OkxGateway.on_order, h]
  · simp [OkxGateway.on_order, h]

/-- Witness for C3: a cached order with offset OPEN survives an update
carrying offset NONE. -/
theorem claim_C3_witness :
    (OkxGateway.on_order w3_orders w3_new).2.offset = w3_prev.offset ∧
    (OkxGateway.on_order w3_orders w3_new).1 w3_new.orderid =
      some (OkxGateway.on_order w3_orders w3_new).2 :=
  claim_C3 w3_orders w3_new w3_prev rfl

/-- Claim C4: a stop-order push item whose state is "effective" is
skipped without any effect, on both the private-channel and the
business-channel stop-order handlers: the handler run with the item is
identical to the run without it (same registry, same cache, same
emitted events, same error). -/
theorem claim_C4 (reg : Registry) (orders : OrderMap)
    (pre post : List AlgoPush) (d : AlgoPush) (h : d.state = "effective") :
    (OkxWebsocketPrivateApi.on_stop_order reg orders (pre ++ d :: post) =
      OkxWebsocketPrivateApi.on_stop_order reg orders (pre ++ post)) ∧
    (OkxWebsocketBusinessApi.on_stop_order reg orders (pre ++ d :: post) =
      OkxWebsocketBusinessApi.on_stop_order reg orders (pre ++ post)) :=
  ⟨stop_order_loop_skip d h pre reg orders post,
   stop_order_loop_skip d h pre reg orders post⟩

/-- Witness for C4: a single "effective" push produces the same result
as an empty frame. -/
theorem claim_C4_witness :
    OkxWebsocketPrivateApi.on_stop_order Registry.empty OrderMap.empty
        [w4_push] =
      OkxWebsocketPrivateApi.on_stop_order Registry.empty OrderMap.empty [] :=
  (claim_C4 Registry.empty OrderMap.empty [] [] w4_push rfl).1

/-- Claim C6 (as frozen, refuted): cancelling a stop order whose local
id has no remote binding sends nothing on the wire — but, contrary to
the claim, it also writes NO log line: the returned log list is empty,
so the unbound lookup is swallowed entirely. -/
theorem claim_C6_counterexample :
    (OkxRestApi.cancel_stop_order Registry.empty c6_req).1 = [] ∧
    (OkxRestApi.cancel_stop_order Registry.empty c6_req).2 = [] :=
  ⟨rfl, rfl⟩

/-- Claim C6 (amended): a stop-order cancel whose local order id has no
remote algo-id binding is a complete silent no-op: no cancel request is
sent, no state changes, and no log event is emitted. -/
theorem claim_C6_amended (reg : Registry) (req : CancelRequest)
    (h : reg.local_remote_orderid_map req.orderid = none) :
    OkxRestApi.cancel_stop_order reg req = ([], []) := by
  rw [OkxRestApi.cancel_stop_order, h]

/-- Witness for C6 (amended) at a concrete unbound cancel request. -/
theorem claim_C6_witness :
    OkxRestApi.cancel_stop_order Registry.empty w6_req = ([], []) :=
  claim_C6_amended Registry.empty w6_req rfl

/-- Claim C9: in the private order handler, an item with `fillSz = "0"`
causes the handler to return right after emitting that item's order
event: the run over a frame containing such an item equals the run over
the frame truncated after the first zero-fill item, and a zero-fill item
alone produces exactly one order event (no trade, no error). -/
theorem claim_C9 (reg : Registry) (orders : OrderMap)
    (pre post : List OrderPush) (z : OrderPush) (h : z.fillSz = "0") :
    (OkxWebsocketPrivateApi.on_order reg orders (pre ++ z :: post) =
      OkxWebsocketPrivateApi.on_order reg orders (pre ++ [z])) ∧
    (∀ o : OrderData, (parse_order_data reg z "OKX").2 = Except.ok o →
      OkxWebsocketPrivateApi.on_order reg orders [z] =
        { reg := (parse_order_data reg z "OKX").1
          orders := (OkxGateway.on_order orders o).1
          events := [GwEvent.order (OkxGateway.on_order orders o).2]
          err := none }) := by
  constructor
  · exact on_order_zero_fill_stops z h pre reg orders post
  · intro o ho
    rw [OkxWebsocketPrivateApi.on_order]
    dsimp only
    rw [ho]
    dsimp only
    rw [if_pos h]

/-- Witness for C9: a frame holding a zero-fill item followed by a
non-zero-fill item behaves exactly as the frame truncated after the
zero-fill item. -/
theorem claim_C9_witness :
    OkxWebsocketPrivateApi.on_order Registry.empty OrderMap.empty
        [w9_z, w9_tail] =
      OkxWebsocketPrivateApi.on_order Registry.empty OrderMap.empty [w9_z] :=
  (claim_C9 Registry.empty OrderMap.empty [] [w9_tail] w9_z rfl).1

/-- Claim C10: a cancel request whose order id is absent from the
gateway's order cache makes `get_order` return the not-found sentinel
and the unguarded `.type` access then fails with an AttributeError, so
the cancel is neither routed nor logged; the batch-cancel path takes the
same unguarded branch per request, so a missing id anywhere in the batch
makes the batch fail with the same error. -/
theorem claim_C10 (orders : OrderMap) (req : CancelRequest)
    (reqs : List CancelRequest) :
    (OkxGateway.get_order orders req.orderid = none →
      OkxGateway.cancel_order orders req =
        ([], some OkxGateway.attribute_error)) ∧
    ((∃ r ∈ reqs, OkxGateway.get_order orders r.orderid = none) →
      (OkxGateway.cancel_orders orders reqs).2 =
        some OkxGateway.attribute_error) := by
  constructor
  · intro h
    rw [OkxGateway.cancel_order, h]
  · intro h
    exact cancel_orders_loop_err orders reqs [] h

/-- Witness for C10 at a concrete never-cached cancel request. -/
theorem claim_C10_witness :
    OkxGateway.cancel_order OrderMap.empty w10_req =
      ([], some OkxGateway.attribute_error) ∧
    (OkxGateway.cancel_orders OrderMap.empty [w10_req]).2 =
      some OkxGateway.attribute_error := by
  have h := claim_C10 OrderMap.empty w10_req [w10_req]
  exact ⟨h.1 rfl, h.2 ⟨w10_req, by simp, rfl⟩⟩

end Vnpy

namespace Vnpy

/-- Claim C5: batch cancellation splits the request list into
consecutive wire chunks of at most 15 requests, preserving the input
order (flattening the wire messages recovers the per-request args in
input order); a batch of 37 requests yields exactly chunks of sizes 15,
15 and 7; and the relay variant groups each gateway's bucket as exactly
the input-order sublist of requests owned by that gateway. -/
theorem claim_C5 (ids : StrSet) (requests : List CancelRequest)
    (symbol_gateway_map : String → Option String) (g : String) :
    ((OkxWebsocketPrivateApi.cancel_orders ids requests).flatten =
      requests.map (OkxWebsocketPrivateApi.make_cancel_arg ids)) ∧
    (∀ msg ∈ OkxWebsocketPrivateApi.cancel_orders ids requests,
      msg.length ≤ 15) ∧
    ((OkxWebsocketPrivateApi.chunks (List.replicate 37 sample_req) 15).map
      List.length = [15, 15, 7]) ∧
    (RpcGateway.cancel_orders_grouping symbol_gateway_map requests g =
      requests.filter
        (fun r => ((symbol_gateway_map r.vt_symbol).getD "") == g)) := by
  refine ⟨?_, ?_, ?_, ?_⟩
  · rw [OkxWebsocketPrivateApi.cancel_orders, flatten_map_map,
      chunks_eq_chunks_rec, chunks_rec_flatten]
  · intro msg hmsg
    rw [OkxWebsocketPrivateApi.cancel_orders] at hmsg
    rcases List.mem_map.mp hmsg with ⟨c, hc, hce⟩
    rw [← hce, List.length_map]
    rw [chunks_eq_chunks_rec] at hc
    exact chunks_rec_mem_length _ c hc
  · rfl
  · rw [RpcGateway.cancel_orders_grouping, rpc_grouping_foldl]
    simp

/-- Witness for C5 at a concrete one-element batch. -/
theorem claim_C5_witness :
    ((OkxWebsocketPrivateApi.cancel_orders (fun _ => false) [sample_req]).flatten =
      [sample_req].map (OkxWebsocketPrivateApi.make_cancel_arg (fun _ => false))) ∧
    ([OkxWebsocketPrivateApi.make_cancel_arg (fun _ => false) sample_req].length ≤ 15) := by
  have h := claim_C5 (fun _ => false) [sample_req] (fun _ => none) ""
  refine ⟨h.1, ?_⟩
  exact h.2.1 [OkxWebsocketPrivateApi.make_cancel_arg (fun _ => false) sample_req]
    (by decide)

/-- Claim C7: a plain transport frame "pong" is normalized by
unpack_data into the structured op-style frame, so it is dispatched
exactly like that structured ping-ack frame (both are dropped: no
callback is registered under "ping"); and the keep-alive cadence sends a
ping exactly when at least 10 seconds have elapsed since the last ping,
resetting the timestamp when it does. -/
theorem claim_C7 (jsonLoads : String → Packet) (last current : Int) :
    (OkxWebsocketApi.unpack_data jsonLoads "pong" =
      OkxWebsocketApi.ping_ack_frame) ∧
    (OkxWebsocketPrivateApi.on_packet (OkxWebsocketApi.unpack_data jsonLoads "pong") =
      OkxWebsocketPrivateApi.on_packet OkxWebsocketApi.ping_ack_frame) ∧
    (OkxWebsocketPrivateApi.on_packet OkxWebsocketApi.ping_ack_frame = none) ∧
    ((OkxGateway.process_timer_event last current).2 = true ↔
      10 ≤ current - last) ∧
    ((OkxGateway.process_timer_event last current).2 = true →
      (OkxGateway.process_timer_event last current).1 = current) := by
  refine ⟨rfl, rfl, rfl, ?_, ?_⟩
  · by_cases hc : current - last < 10 <;>
      simp [OkxGateway.process_timer_event, hc] <;> omega
  · by_cases hc : current - last < 10 <;>
      simp [OkxGateway.process_timer_event, hc]

/-- Witness for C7: at 10 elapsed seconds the ping fires and the
timestamp resets. -/
theorem claim_C7_witness :
    (OkxWebsocketApi.unpack_data (fun _ => OkxWebsocketApi.ping_ack_frame) "pong" =
      OkxWebsocketApi.ping_ack_frame) ∧
    (OkxGateway.process_timer_event 0 10).2 = true ∧
    (OkxGateway.process_timer_event 0 10).1 = 10 := by
  have h := claim_C7 (fun _ => OkxWebsocketApi.ping_ack_frame) 0 10
  refine ⟨h.1, ?_, ?_⟩
  · exact h.2.2.2.1.mpr (by decide)
  · exact h.2.2.2.2 (h.2.2.2.1.mpr (by decide))

/-- Claim C2 (as frozen, refuted): on a two-page run the second request
issued carries `before = 1000` — the unchanged original start cursor,
not the first page's oldest timestamp 400 — and `after = 400` — the
first page's oldest timestamp, not its newest timestamp 500; so the
claimed cursor roles are not the implemented ones. -/
theorem claim_C2_counterexample :
    (OkxRestApi.query_trace c2_server "BTC-USDT" 1000).map Prod.fst =
      [{ before := 1000, after := none }, { before := 1000, after := some 400 }] ∧
    ({ before := 1000, after := some 400 } : OkxRestApi.CandleParams) ≠
      { before := 400, after := some 500 } := by
  exact ⟨rfl, by decide⟩

/-- Claim C2 (amended): history pagination issues at most 15 successive
REST candle queries; every request's `before` cursor is the unchanged
original start timestamp; whenever a request is followed by another,
its response had a 2xx status and a nonempty page, and the next
request's `after` cursor is the timestamp of that page's last-listed
(oldest, pages being newest-first) bar — so the loop stops at the first
non-success status or empty page. -/
theorem claim_C2_amended (server : OkxRestApi.CandleParams → HttpResp)
    (symbol : String) (start_time : Nat) :
    (OkxRestApi.query_trace server symbol start_time).length ≤ 15 ∧
    (∀ x ∈ OkxRestApi.query_trace server symbol start_time,
      x.1.before = start_time) ∧
    List.Chain' page_step (OkxRestApi.query_trace server symbol start_time) := by
  refine ⟨?_, ?_, ?_⟩
  · exact query_pages_trace_length server symbol start_time 15 none []
  · exact query_pages_trace_before server symbol start_time 15 none []
  · exact query_pages_trace_chain server symbol start_time 15 none []

/-- Witness for C2 (amended) on the concrete two-page server. -/
theorem claim_C2_witness :
    (OkxRestApi.query_trace c2_server "BTC-USDT" 1000).length ≤ 15 ∧
    (({ before := 1000, after := none } : OkxRestApi.CandleParams),
      c2_server { before := 1000, after := none }).1.before = 1000 := by
  have h := claim_C2_amended c2_server "BTC-USDT" 1000
  refine ⟨h.1, h.2.1 _ ?_⟩
  decide

/-- Claim C8: a later insertion for an already-present timestamp
overwrites the buffered bar (the lookup afterwards returns the new bar),
and for every server response sequence the final history list is
strictly ascending in time — in particular it holds no duplicate
timestamps. -/
theorem claim_C8 (server : OkxRestApi.CandleParams → HttpResp)
    (symbol : String) (start_time : Nat) :
    List.Pairwise (· < ·)
      ((OkxRestApi.query_history server symbol start_time).map BarData.ts) ∧
    ∀ (buf : Buf) (k : Nat) (b : BarData),
      buf_lookup (buf_insert buf k b) k = some b := by
  constructor
  · have hwf : BufWf (OkxRestApi.query_pages server symbol start_time 15 none []).1 :=
      query_pages_buf_wf server symbol start_time 15 none []
        ⟨List.nodup_nil, by simp⟩
    exact buf_finalize_pairwise _ hwf
  · intro buf k b
    exact buf_lookup_insert_self buf k b

end Vnpy
